import Mathlib

/-!
Verification of the pifp-stellar crowdfunding escrow contract.

The token allow-list validator is embedded from
`src/contracts/pifp_protocol/src/gas_profiling.rs`
(`GasOptimizer::check_duplicate_tokens_optimized`).  The escrow operations
(`register_project`, `deposit`, `verify_and_release`, `expire_project`) live in
the crate root, which is not among the available sources; they are modelled
from the specification (sections 4.3 to 4.5, 6 and 7 of spec.md), with the
Soroban panic-with-error discipline rendered as `Except`: a failing call
returns a named error and commits no state mutation.

Addresses (principals and token ids), proof hashes and timestamps are
abstracted as `Nat`; amounts are the signed 128-bit accounting unit, modelled
as `Int` with an explicit overflow guard at `2 ^ 127 - 1`.
-/

/-- Lifecycle status of a project: Funding until the first deposit, Active
while collecting, Completed after release, Expired after the deadline. -/
inductive ProjectStatus
  | Funding
  | Active
  | Completed
  | Expired
deriving DecidableEq, Repr

/-- Roles of the access-control registry. -/
inductive Role
  | Admin
  | Oracle
deriving DecidableEq, Repr

/-- The caller-visible error taxonomy of the contract (spec.md section 7). -/
inductive Error
  | Unauthorized
  | InvalidStatus
  | TokenNotAccepted
  | TooManyTokens
  | DuplicateToken
  | InvalidGoal
  | InvalidDeadline
  | InvalidProof
  | GoalNotMet
  | DeadlineNotReached
  | Overflow
  | InvalidAmount
deriving DecidableEq, Repr

/-- A registered project record (spec.md section 3). -/
structure Project where
  id : Nat
  creator : Nat
  accepted_tokens : List Nat
  goal : Int
  proof_hash : Nat
  deadline : Nat
  status : ProjectStatus
deriving DecidableEq, Repr

/-- Per-project state: the project record together with its balance-ledger
entries, one accumulated amount per token id. -/
structure ProjState where
  project : Project
  balances : Nat → Int

/-- Contract-level state: the id counter and the registered projects. -/
structure ContractState where
  next_id : Nat
  projects : List Project
deriving DecidableEq, Repr

/-- Largest representable amount of the signed 128-bit accounting unit. -/
def I128_MAX : Int := 2 ^ 127 - 1

/-- Loop body of GasOptimizer.check_duplicate_tokens_optimized
(gas_profiling.rs lines 109 to 121): walks the token sequence left to right
carrying the set of tokens seen so far, and fails with DuplicateToken at the
first token already in the set. -/
def dupScan : List Nat → List Nat → Except Error Unit
  | [], _ => .ok ()
  | t :: rest, seen =>
    if t ∈ seen then .error .DuplicateToken
    else dupScan rest (t :: seen)

/-- GasOptimizer.check_duplicate_tokens_optimized (gas_profiling.rs lines 99
to 124): rejects sequences longer than 10 with TooManyTokens, otherwise runs
the single-pass duplicate scan starting from an empty seen-set. -/
def check_duplicate_tokens_optimized (tokens : List Nat) : Except Error Unit :=
  if tokens.length > 10 then .error .TooManyTokens
  else dupScan tokens []

/-- Aggregate total of a project: the sum of its balance-ledger entries over
the accepted tokens (spec.md section 4.3, total). -/
def total (s : ProjState) : Int :=
  (s.project.accepted_tokens.map s.balances).sum

/-- Modelled from the spec: register of section 4.4 together with the
orchestrator of section 4.5 (the crate root source is unavailable).  Validates
the token list through the allow-list validator, requires a positive goal and
a strictly future deadline, then creates the project with the next sequence
id and status Funding. -/
def register_project (creator : Nat) (tokens : List Nat) (goal : Int)
    (proof_hash : Nat) (deadline : Nat) (now : Nat) (st : ContractState) :
    Except Error (Project × ContractState) :=
  match check_duplicate_tokens_optimized tokens with
  | .error e => .error e
  | .ok _ =>
    if goal ≤ 0 then .error .InvalidGoal
    else if deadline ≤ now then .error .InvalidDeadline
    else
      let p : Project :=
        ⟨st.next_id, creator, tokens, goal, proof_hash, deadline, .Funding⟩
      .ok (p, ⟨st.next_id + 1, st.projects ++ [p]⟩)

/-- Modelled from the spec: on_deposit of section 4.4 composed with credit of
section 4.3 (the crate root source is unavailable).  Requires status Funding
or Active, an accepted token and a positive amount; credits the ledger with a
checked add, and a Funding project transitions to Active on the successful
deposit. -/
def deposit (s : ProjState) (_donor token : Nat) (amount : Int) :
    Except Error ProjState :=
  if s.project.status = .Funding ∨ s.project.status = .Active then
    if token ∈ s.project.accepted_tokens then
      if amount ≤ 0 then .error .InvalidAmount
      else if I128_MAX < s.balances token + amount then .error .Overflow
      else
        .ok { project :=
                { s.project with
                  status := if s.project.status = .Funding then .Active
                            else s.project.status },
              balances := fun t =>
                if t = token then s.balances t + amount else s.balances t }
    else .error .TokenNotAccepted
  else .error .InvalidStatus

/-- Modelled from the spec: verify_and_release of section 4.4 (the crate root
source is unavailable).  Requires the Oracle role, status Active, an exact
proof match and an aggregate total at least the goal, in that order; on
success drains every balance entry to zero and sets the status to
Completed. -/
def verify_and_release (roles : Nat → Role → Bool) (caller : Nat)
    (s : ProjState) (proof : Nat) : Except Error ProjState :=
  if roles caller .Oracle = false then .error .Unauthorized
  else if s.project.status ≠ .Active then .error .InvalidStatus
  else if proof ≠ s.project.proof_hash then .error .InvalidProof
  else if total s < s.project.goal then .error .GoalNotMet
  else
    .ok { project := { s.project with status := .Completed },
          balances := fun _ => 0 }

/-- Modelled from the spec: expire of section 4.4 (the crate root source is
unavailable).  Requires the current time strictly past the deadline, else
DeadlineNotReached, and a non-terminal status, else InvalidStatus; on success
sets the status to Expired and moves no funds. -/
def expire_project (now : Nat) (s : ProjState) : Except Error ProjState :=
  if now ≤ s.project.deadline then .error .DeadlineNotReached
  else if s.project.status = .Funding ∨ s.project.status = .Active then
    .ok { s with project := { s.project with status := .Expired } }
  else .error .InvalidStatus

/-- Transactional call semantics of the host: a failed call reverts, leaving
the pre-call per-project state. -/
def execCall (s : ProjState) (r : Except Error ProjState) : ProjState :=
  match r with
  | .ok s' => s'
  | .error _ => s

/-- Transactional call semantics of the host at contract level: a failed
registration leaves the contract state untouched. -/
def execRegister (st : ContractState)
    (r : Except Error (Project × ContractState)) : ContractState :=
  match r with
  | .ok ps => ps.2
  | .error _ => st

/-- Runs a finite sequence of deposits, each given as a triple of donor,
token and amount, stopping at the first failure. -/
def runDeposits : List (Nat × Nat × Int) → ProjState → Except Error ProjState
  | [], s => .ok s
  | (d, t, a) :: rest, s =>
    match deposit s d t a with
    | .error e => .error e
    | .ok s' => runDeposits rest s'

/-- A freshly initialized contract instance: id counter at zero, no
projects. -/
def initState : ContractState := ⟨0, []⟩

/-- A role registry granting every role to every principal, used for concrete
evaluations. -/
def rolesAll : Nat → Role → Bool := fun _ _ => true

/-- A sample project used for concrete evaluations: two accepted tokens,
goal 100, proof hash 42, deadline 1000, already Active. -/
def sampleProject : Project := ⟨0, 1, [5, 6], 100, 42, 1000, .Active⟩

/-- Sample ledger with aggregate total 110 over the two accepted tokens. -/
def sampleBal : Nat → Int := fun t => if t = 5 then 60 else if t = 6 then 50 else 0

/-- Sample Active project state whose total 110 meets the goal 100. -/
def sampleState : ProjState := ⟨sampleProject, sampleBal⟩

/-- Sample Active project state with an empty ledger, total 0. -/
def poorState : ProjState := ⟨sampleProject, fun _ => 0⟩

/-- Sample freshly-registered project state: status Funding, empty ledger. -/
def fundingState : ProjState :=
  ⟨{ sampleProject with status := .Funding }, fun _ => 0⟩

/-- Claim C10: the allow-list validator accepts the empty token sequence,
returning Ok for an input of length 0 and so enforcing no lower bound on the
number of accepted tokens. -/
theorem C10_validator_accepts_empty :
    check_duplicate_tokens_optimized [] = .ok () := rfl

/-- The duplicate scan succeeds on a duplicate-free suffix whose entries are
disjoint from the seen-set. -/
theorem dupScan_ok (l : List Nat) : ∀ seen : List Nat, l.Nodup →
    (∀ t ∈ l, t ∉ seen) → dupScan l seen = .ok () := by
  induction l with
  | nil => intro seen _ _; rfl
  | cons x rest ih =>
    intro seen hnd hdisj
    have hx : x ∉ seen := hdisj x (List.mem_cons_self x rest)
    simp only [dupScan, if_neg hx]
    refine ih (x :: seen) (List.Nodup.of_cons hnd) ?_
    intro t ht
    rcases List.nodup_cons.mp hnd with ⟨hxr, _⟩
    intro hmem
    rcases List.mem_cons.mp hmem with h | h
    · exact hxr (h ▸ ht)
    · exact hdisj t (List.mem_cons_of_mem x ht) h

/-- The duplicate scan fails with DuplicateToken as soon as the sequence
reaches an entry already scanned or already in the seen-set, whatever follows
that entry. -/
theorem dupScan_dup (l₁ : List Nat) : ∀ (seen : List Nat) (d : Nat)
    (l₂ : List Nat), l₁.Nodup → (∀ t ∈ l₁, t ∉ seen) →
    (d ∈ l₁ ∨ d ∈ seen) →
    dupScan (l₁ ++ d :: l₂) seen = .error .DuplicateToken := by
  induction l₁ with
  | nil =>
    intro seen d l₂ _ _ hd
    have : d ∈ seen := by
      rcases hd with h | h
      · exact absurd h (List.not_mem_nil d)
      · exact h
    simp only [List.nil_append, dupScan, if_pos this]
  | cons x rest ih =>
    intro seen d l₂ hnd hdisj hd
    have hx : x ∉ seen := hdisj x (List.mem_cons_self x rest)
    simp only [List.cons_append, dupScan, if_neg hx]
    refine ih (x :: seen) d l₂ (List.Nodup.of_cons hnd) ?_ ?_
    · intro t ht
      rcases List.nodup_cons.mp hnd with ⟨hxr, _⟩
      intro hmem
      rcases List.mem_cons.mp hmem with h | h
      · exact hxr (h ▸ ht)
      · exact hdisj t (List.mem_cons_of_mem x ht) h
    · rcases hd with h | h
      · rcases List.mem_cons.mp h with h | h
        · exact Or.inr (List.mem_cons.mpr (Or.inl h))
        · exact Or.inl h
      · exact Or.inr (List.mem_cons.mpr (Or.inr h))

/-- Claim C3: the allow-list validator fails with TooManyTokens when the
sequence is longer than 10; it accepts every sequence of length at most 10
with pairwise-distinct entries; and on a sequence whose first repetition is
the entry d after a duplicate-free prefix l₁ containing d, it fails with
DuplicateToken whatever the later entries l₂ are, so the scan short-circuits
at the first collision without examining the rest of the sequence. -/
theorem C3_validator_characterization (tokens : List Nat) :
    (10 < tokens.length →
      check_duplicate_tokens_optimized tokens = .error .TooManyTokens)
  ∧ (tokens.length ≤ 10 → tokens.Nodup →
      check_duplicate_tokens_optimized tokens = .ok ())
  ∧ (∀ l₁ d l₂, tokens = l₁ ++ d :: l₂ → l₁.Nodup → d ∈ l₁ →
      tokens.length ≤ 10 →
      check_duplicate_tokens_optimized tokens = .error .DuplicateToken) := by
  refine ⟨?_, ?_, ?_⟩
  · intro h
    simp only [check_duplicate_tokens_optimized, gt_iff_lt, if_pos h]
  · intro hlen hnd
    have : ¬ 10 < tokens.length := not_lt.mpr hlen
    simp only [check_duplicate_tokens_optimized, gt_iff_lt, if_neg this]
    exact dupScan_ok tokens [] hnd (by intro t _ h; exact (List.not_mem_nil t) h)
  · intro l₁ d l₂ heq hnd hmem hlen
    subst heq
    have : ¬ 10 < (l₁ ++ d :: l₂).length := not_lt.mpr hlen
    simp only [check_duplicate_tokens_optimized, gt_iff_lt, if_neg this]
    exact dupScan_dup l₁ [] d l₂ hnd
      (by intro t _ h; exact (List.not_mem_nil t) h) (Or.inl hmem)

/-- Concrete exercise of the validator characterization: an 11-token sequence
is rejected as TooManyTokens, a distinct 3-token sequence is accepted, and a
sequence repeating its first entry at position 2 is rejected as
DuplicateToken. -/
theorem C3_validator_characterization_witness :
    check_duplicate_tokens_optimized [0, 1, 2, 3, 4, 5, 6, 7, 8, 9, 10]
        = .error .TooManyTokens
  ∧ check_duplicate_tokens_optimized [1, 2, 3] = .ok ()
  ∧ check_duplicate_tokens_optimized [1, 2, 1, 7] = .error .DuplicateToken :=
  ⟨(C3_validator_characterization [0, 1, 2, 3, 4, 5, 6, 7, 8, 9, 10]).1
      (by decide),
   (C3_validator_characterization [1, 2, 3]).2.1 (by decide) (by decide),
   (C3_validator_characterization [1, 2, 1, 7]).2.2 [1, 2] 1 [7] rfl
      (by decide) (by decide) (by decide)⟩

/-- Claim C1: with the Oracle role, Active status and a matching proof in
place, verify_and_release fails with GoalNotMet exactly when the aggregate
total is strictly below the goal; and any successful call implies the total
reached the goal. -/
theorem C1_goal_gate (roles : Nat → Role → Bool) (caller : Nat)
    (s : ProjState) (proof : Nat) :
    (roles caller Role.Oracle = true → s.project.status = ProjectStatus.Active →
      proof = s.project.proof_hash → total s < s.project.goal →
      verify_and_release roles caller s proof = .error .GoalNotMet)
  ∧ (∀ s', verify_and_release roles caller s proof = .ok s' →
      s.project.goal ≤ total s) := by
  constructor
  · intro hr hs hp hg
    simp only [verify_and_release, hr, hs, hp, hg]
    simp
  · intro s' h
    unfold verify_and_release at h
    split at h
    · exact absurd h (by simp)
    · split at h
      · exact absurd h (by simp)
      · split at h
        · exact absurd h (by simp)
        · split at h
          · exact absurd h (by simp)
          · omega

/-- Concrete exercise of the goal gate: on an Active project with goal 100
and an empty ledger, release with the right proof fails with GoalNotMet. -/
theorem C1_goal_gate_witness :
    verify_and_release rolesAll 2 poorState 42 = .error .GoalNotMet :=
  (C1_goal_gate rolesAll 2 poorState 42).1 rfl rfl rfl (by decide)

/-- Claim C2: with the Oracle role, verify_and_release on a Funding project
fails with InvalidStatus; and any successful call implies the status was
Active. -/
theorem C2_active_gate (roles : Nat → Role → Bool) (caller : Nat)
    (s : ProjState) (proof : Nat) :
    (roles caller Role.Oracle = true →
      s.project.status = ProjectStatus.Funding →
      verify_and_release roles caller s proof = .error .InvalidStatus)
  ∧ (∀ s', verify_and_release roles caller s proof = .ok s' →
      s.project.status = ProjectStatus.Active) := by
  constructor
  · intro hr hs
    simp only [verify_and_release, hr, hs]
    simp
  · intro s' h
    unfold verify_and_release at h
    split at h
    · exact absurd h (by simp)
    · split at h
      · exact absurd h (by simp)
      · next hne => exact not_not.mp hne

/-- Claim C2 exercised concretely: with the Oracle role granted, releasing a
freshly registered (Funding) project fails with InvalidStatus. -/
theorem C2_active_gate_witness :
    verify_and_release rolesAll 2 fundingState 42 = .error .InvalidStatus :=
  (C2_active_gate rolesAll 2 fundingState 42).1 rfl rfl

/-- Claim C4: a successful verify_and_release leaves every per-token balance
at zero and the status Completed, while a failing one commits nothing: under
the transactional call semantics the resulting state is exactly the state
before the call. -/
theorem C4_release_effects (roles : Nat → Role → Bool) (caller : Nat)
    (s : ProjState) (proof : Nat) :
    (∀ s', verify_and_release roles caller s proof = .ok s' →
      (∀ t, s'.balances t = 0) ∧ s'.project.status = ProjectStatus.Completed)
  ∧ (∀ e, verify_and_release roles caller s proof = .error e →
      execCall s (verify_and_release roles caller s proof) = s) := by
  constructor
  · intro s' h
    unfold verify_and_release at h
    split at h
    · exact absurd h (by simp)
    · split at h
      · exact absurd h (by simp)
      · split at h
        · exact absurd h (by simp)
        · split at h
          · exact absurd h (by simp)
          · cases h
            exact ⟨fun t => rfl, rfl⟩
  · intro e h
    rw [h]
    rfl

/-- Claim C4 exercised concretely: on the sample Active project whose total
110 meets the goal 100, release succeeds, the resulting ledger is zero
everywhere and the resulting status is Completed. -/
theorem C4_release_effects_witness :
    (∀ t, (⟨⟨0, 1, [5, 6], 100, 42, 1000, .Completed⟩, fun _ => 0⟩ :
        ProjState).balances t = 0)
  ∧ (⟨⟨0, 1, [5, 6], 100, 42, 1000, .Completed⟩, fun _ => 0⟩ :
        ProjState).project.status = ProjectStatus.Completed :=
  (C4_release_effects rolesAll 2 sampleState 42).1
    ⟨⟨0, 1, [5, 6], 100, 42, 1000, .Completed⟩, fun _ => 0⟩ rfl

/-- Claim C5: expire_project succeeds exactly when the current time is
strictly past the deadline and the status is Funding or Active; at or before
the deadline it fails with DeadlineNotReached; past the deadline, from a
terminal status, it fails with InvalidStatus; hence a second call at any
later time after a successful expiry always fails with InvalidStatus. -/
theorem C5_expire_characterization (now : Nat) (s : ProjState) :
    ((∃ s', expire_project now s = .ok s') ↔
      (s.project.deadline < now ∧
        (s.project.status = ProjectStatus.Funding ∨
         s.project.status = ProjectStatus.Active)))
  ∧ (now ≤ s.project.deadline →
      expire_project now s = .error .DeadlineNotReached)
  ∧ (s.project.deadline < now →
      (s.project.status = ProjectStatus.Completed ∨
       s.project.status = ProjectStatus.Expired) →
      expire_project now s = .error .InvalidStatus)
  ∧ (∀ s' now', expire_project now s = .ok s' → now ≤ now' →
      expire_project now' s' = .error .InvalidStatus) := by
  refine ⟨⟨?_, ?_⟩, ?_, ?_, ?_⟩
  · rintro ⟨s', h⟩
    unfold expire_project at h
    split at h
    · exact absurd h (by simp)
    · split at h
      · next hlt hst => exact ⟨by omega, hst⟩
      · exact absurd h (by simp)
  · rintro ⟨hd, hst⟩
    have hd' : ¬ now ≤ s.project.deadline := by omega
    exact ⟨{ s with project := { s.project with status := .Expired } },
      by simp only [expire_project, if_neg hd', if_pos hst]⟩
  · intro h
    simp only [expire_project, if_pos h]
  · intro hd hterm
    have hd' : ¬ now ≤ s.project.deadline := by omega
    have hst : ¬ (s.project.status = ProjectStatus.Funding ∨
        s.project.status = ProjectStatus.Active) := by
      rcases hterm with h | h <;> rw [h] <;> simp
    simp only [expire_project, if_neg hd', if_neg hst]
  · intro s' now' h hle
    unfold expire_project at h
    split at h
    · exact absurd h (by simp)
    · split at h
      · cases h
        next hdl _ =>
          have h₁ : ¬ now' ≤ s.project.deadline := by
            simp only [not_le] at hdl ⊢; omega
          simp only [expire_project, if_neg h₁]
          simp
      · exact absurd h (by simp)

/-- Claim C5 exercised concretely: expiring the sample Funding project at
time 1001 succeeds, and a second expire_project at time 1002 fails with
InvalidStatus. -/
theorem C5_expire_characterization_witness :
    expire_project 1002
        ⟨⟨0, 1, [5, 6], 100, 42, 1000, .Expired⟩, fun _ => 0⟩
      = .error .InvalidStatus :=
  (C5_expire_characterization 1001 fundingState).2.2.2
    ⟨⟨0, 1, [5, 6], 100, 42, 1000, .Expired⟩, fun _ => 0⟩ 1002 rfl
    (by decide)

/-- Claim C6: every project returned by register_project has status Funding,
and every successful deposit leaves the project Active, so the first deposit
on a Funding project moves it to Active and later deposits keep it there. -/
theorem C6_status_lifecycle :
    (∀ c tokens g ph dl now st p st',
      register_project c tokens g ph dl now st = .ok (p, st') →
      p.status = ProjectStatus.Funding)
  ∧ (∀ s d t a s', deposit s d t a = .ok s' →
      s'.project.status = ProjectStatus.Active) := by
  constructor
  · intro c tokens g ph dl now st p st' h
    unfold register_project at h
    split at h
    · exact absurd h (by simp)
    · split at h
      · exact absurd h (by simp)
      · split at h
        · exact absurd h (by simp)
        · cases h
          rfl
  · intro s d t a s' h
    unfold deposit at h
    split at h
    · split at h
      · split at h
        · exact absurd h (by simp)
        · split at h
          · exact absurd h (by simp)
          · cases h
            next hst _ _ _ =>
              rcases hst with hf | ha
              · simp [hf]
              · simp [ha]
              
      · exact absurd h (by simp)
    · exact absurd h (by simp)

set_option maxRecDepth 4000 in
/-- Claim C6 exercised concretely: a freshly registered project has status
Funding, and a first deposit of 10 in token 5 on the sample Funding project
yields status Active. -/
theorem C6_status_lifecycle_witness :
    (⟨0, 1, [5], 100, 42, 1000, .Funding⟩ : Project).status
        = ProjectStatus.Funding
  ∧ (execCall fundingState (deposit fundingState 9 5 10)).project.status
        = ProjectStatus.Active :=
  ⟨C6_status_lifecycle.1 1 [5] 100 42 1000 0 initState
      ⟨0, 1, [5], 100, 42, 1000, .Funding⟩ ⟨1, [⟨0, 1, [5], 100, 42, 1000,
      .Funding⟩]⟩ rfl,
   C6_status_lifecycle.2 fundingState 9 5 10
      (execCall fundingState (deposit fundingState 9 5 10)) rfl⟩

/-- Crediting one token of a duplicate-free list adds the credited amount to
the sum of the mapped balances. -/
theorem sum_map_credit (l : List Nat) (f : Nat → Int) (tk : Nat) (a : Int)
    (hnd : l.Nodup) (hmem : tk ∈ l) :
    (l.map fun x => if x = tk then f x + a else f x).sum = (l.map f).sum + a := by
  induction l with
  | nil => cases hmem
  | cons x rest ih =>
    rcases List.nodup_cons.mp hnd with ⟨hxr, hndr⟩
    rcases List.mem_cons.mp hmem with h | h
    · subst h
      simp only [List.map_cons, List.sum_cons, if_pos rfl]
      have hrest : (rest.map fun y => if y = tk then f y + a else f y)
          = rest.map f := by
        apply List.map_congr_left
        intro y hy
        have hne : y ≠ tk := fun he => hxr (he ▸ hy)
        simp [hne]
      rw [hrest]
      simp only [if_true]
      ring
    · have hxt : x ≠ tk := fun he => hxr (by rw [he]; exact h)
      simp only [List.map_cons, List.sum_cons, if_neg hxt]
      rw [ih hndr h]
      ring

/-- A successful deposit raises the aggregate total by exactly the deposited
amount and leaves the accepted-token list unchanged. -/
theorem deposit_total_eq (s : ProjState) (d tk : Nat) (a : Int)
    (s' : ProjState) (hnd : s.project.accepted_tokens.Nodup)
    (h : deposit s d tk a = .ok s') :
    total s' = total s + a ∧
    s'.project.accepted_tokens = s.project.accepted_tokens := by
  unfold deposit at h
  split at h
  · split at h
    · split at h
      · exact absurd h (by simp)
      · split at h
        · exact absurd h (by simp)
        · rename_i hst hmem hpos hov
          cases h
          refine ⟨?_, rfl⟩
          show (s.project.accepted_tokens.map fun t =>
            if t = tk then s.balances t + a else s.balances t).sum
              = (s.project.accepted_tokens.map s.balances).sum + a
          exact sum_map_credit s.project.accepted_tokens s.balances tk a hnd hmem
    · exact absurd h (by simp)
  · exact absurd h (by simp)

/-- Running a sequence of deposits to completion adds the sum of the
deposited amounts to the aggregate total and preserves the accepted-token
list. -/
theorem runDeposits_total (L : List (Nat × Nat × Int)) : ∀ s s' : ProjState,
    s.project.accepted_tokens.Nodup → runDeposits L s = .ok s' →
    total s' = total s + (L.map fun e => e.2.2).sum ∧
    s'.project.accepted_tokens = s.project.accepted_tokens := by
  induction L with
  | nil =>
    intro s s' _ h
    cases h
    simp
  | cons e rest ih =>
    intro s s' hnd h
    obtain ⟨d, tk, a⟩ := e
    simp only [runDeposits] at h
    split at h
    · exact absurd h (by simp)
    · rename_i s₁ hdep
      have h1 := deposit_total_eq s d tk a s₁ hnd hdep
      have hnd1 : s₁.project.accepted_tokens.Nodup := by rw [h1.2]; exact hnd
      have h2 := ih s₁ s' hnd1 h
      refine ⟨?_, by rw [h2.2, h1.2]⟩
      rw [h2.1, h1.1]
      simp only [List.map_cons, List.sum_cons]
      ring

/-- Claim C7: over a project with duplicate-free accepted tokens, any
sequence of successful deposits raises the aggregate total by exactly the sum
of the deposited amounts, a value independent of the deposit order and of the
tokens the amounts were distributed to; in particular any permutation of the
sequence that also runs to completion yields the same total. -/
theorem C7_total_additivity (L L' : List (Nat × Nat × Int))
    (s s' s'' : ProjState) (hnd : s.project.accepted_tokens.Nodup)
    (hperm : L.Perm L') (h : runDeposits L s = .ok s')
    (h' : runDeposits L' s = .ok s'') :
    total s' = total s + (L.map fun e => e.2.2).sum ∧ total s'' = total s' := by
  have h1 := (runDeposits_total L s s' hnd h).1
  have h2 := (runDeposits_total L' s s'' hnd h').1
  refine ⟨h1, ?_⟩
  rw [h1, h2]
  have hs : ((L'.map fun e => e.2.2)).sum = ((L.map fun e => e.2.2)).sum :=
    ((hperm.map fun e => e.2.2).sum_eq).symm
  rw [hs]

set_option maxRecDepth 8000 in
/-- Claim C7 exercised concretely: depositing 10 into token 5 and 5 into
token 6 of the sample Funding project, in either order, raises the total
from 0 by 15, and both orders agree. -/
theorem C7_total_additivity_witness :
    total (execCall fundingState
        (runDeposits [(9, 5, 10), (9, 6, 5)] fundingState))
      = total fundingState
          + (([(9, 5, 10), (9, 6, 5)] : List (Nat × Nat × Int)).map
              fun e => e.2.2).sum
  ∧ total (execCall fundingState
        (runDeposits [(9, 6, 5), (9, 5, 10)] fundingState))
      = total (execCall fundingState
          (runDeposits [(9, 5, 10), (9, 6, 5)] fundingState)) :=
  C7_total_additivity [(9, 5, 10), (9, 6, 5)] [(9, 6, 5), (9, 5, 10)]
    fundingState
    (execCall fundingState (runDeposits [(9, 5, 10), (9, 6, 5)] fundingState))
    (execCall fundingState (runDeposits [(9, 6, 5), (9, 5, 10)] fundingState))
    (by decide) (by decide) rfl rfl

/-- Claim C8: with a valid token list, register_project fails with
InvalidGoal whenever the goal is not strictly positive, and with
InvalidDeadline whenever the deadline is not strictly past the current
ledger time; and any failing registration leaves the contract state
untouched, creating no project. -/
theorem C8_register_validation (c : Nat) (tokens : List Nat) (g : Int)
    (ph dl now : Nat) (st : ContractState) :
    (check_duplicate_tokens_optimized tokens = .ok () → g ≤ 0 →
      register_project c tokens g ph dl now st = .error .InvalidGoal)
  ∧ (check_duplicate_tokens_optimized tokens = .ok () → 0 < g → dl ≤ now →
      register_project c tokens g ph dl now st = .error .InvalidDeadline)
  ∧ (∀ e, register_project c tokens g ph dl now st = .error e →
      execRegister st (register_project c tokens g ph dl now st) = st) := by
  refine ⟨?_, ?_, ?_⟩
  · intro hv hg
    unfold register_project
    rw [hv]
    simp only [if_pos hg]
  · intro hv hg hdl
    have hg' : ¬ g ≤ 0 := by omega
    unfold register_project
    rw [hv]
    simp only [if_neg hg', if_pos hdl]
  · intro e h
    rw [h]
    rfl

/-- Claim C8 exercised concretely: registering with goal 0 fails with
InvalidGoal, and registering with goal 100 but a deadline equal to the
current time fails with InvalidDeadline. -/
theorem C8_register_validation_witness :
    register_project 1 [5] 0 42 1000 0 initState = .error .InvalidGoal
  ∧ register_project 1 [5] 100 42 1000 1000 initState
      = .error .InvalidDeadline :=
  ⟨(C8_register_validation 1 [5] 0 42 1000 0 initState).1 rfl (by decide),
   (C8_register_validation 1 [5] 100 42 1000 1000 initState).2.1 rfl
     (by decide) (by decide)⟩

/-- Claim C9: on a freshly initialized contract instance the first
registered project receives id 0, and in general a successful registration
assigns the current value of the id counter and advances the counter by one,
so ids increase by one in registration order. -/
theorem C9_sequential_ids :
    (∀ c tokens g ph dl now p st',
      register_project c tokens g ph dl now initState = .ok (p, st') →
      p.id = 0 ∧ st'.next_id = 1)
  ∧ (∀ c tokens g ph dl now st p st',
      register_project c tokens g ph dl now st = .ok (p, st') →
      p.id = st.next_id ∧ st'.next_id = st.next_id + 1) := by
  have hgen : ∀ c tokens g ph dl now st p st',
      register_project c tokens g ph dl now st = .ok (p, st') →
      p.id = st.next_id ∧ st'.next_id = st.next_id + 1 := by
    intro c tokens g ph dl now st p st' h
    unfold register_project at h
    split at h
    · exact absurd h (by simp)
    · split at h
      · exact absurd h (by simp)
      · split at h
        · exact absurd h (by simp)
        · cases h
          exact ⟨rfl, rfl⟩
  exact ⟨fun c tokens g ph dl now p st' h =>
    hgen c tokens g ph dl now initState p st' h, hgen⟩

/-- Claim C9 exercised concretely: the first registration on a fresh
instance yields project id 0 and counter 1, and a registration on a state
whose counter is 7 yields project id 7 and counter 8. -/
theorem C9_sequential_ids_witness :
    ((⟨0, 1, [5], 100, 42, 1000, .Funding⟩ : Project).id = 0
      ∧ (⟨1, [⟨0, 1, [5], 100, 42, 1000, .Funding⟩]⟩ : ContractState).next_id
          = 1)
  ∧ ((⟨7, 1, [5], 100, 42, 1000, .Funding⟩ : Project).id
        = (⟨7, []⟩ : ContractState).next_id
      ∧ (⟨8, [⟨7, 1, [5], 100, 42, 1000, .Funding⟩]⟩ : ContractState).next_id
          = (⟨7, []⟩ : ContractState).next_id + 1) :=
  ⟨C9_sequential_ids.1 1 [5] 100 42 1000 0
      ⟨0, 1, [5], 100, 42, 1000, .Funding⟩
      ⟨1, [⟨0, 1, [5], 100, 42, 1000, .Funding⟩]⟩ rfl,
   C9_sequential_ids.2 1 [5] 100 42 1000 0 ⟨7, []⟩
      ⟨7, 1, [5], 100, 42, 1000, .Funding⟩
      ⟨8, [⟨7, 1, [5], 100, 42, 1000, .Funding⟩]⟩ rfl⟩
